import Mathlib

/-!
Verification development for the `$GAME` mutation pipeline (`src/mutate.js`).

The pipeline parses a monolithic HTML document into banner-delimited
sections, applies full-body section replacements from a mutation proposal,
rewrites a version watermark, validates the result, and persists it
(archiving the pre-mutation document first for MAJOR bumps).

The embedding below is a line- and character-level shallow embedding of the
JavaScript source.  Strings are Lean `String`s; `split('\n')` / `join('\n')`
are modelled by `splitNl` / `joinNl` on character lists, with the same
semantics as the JavaScript operations (splitting the empty string yields
one empty line, and join is the exact inverse of split).
-/

namespace TheGame

/-- The character class of JavaScript regular-expression `\s`
(whitespace), restricted to the code points that can occur in this
pipeline's documents. -/
def jsWs (c : Char) : Bool :=
  c = ' ' || c = '\t' || c = '\n' || c = '\r' || c = '\x0b' || c = '\x0c'

/-- The character class of JavaScript regular-expression `.` (any
character except line terminators). -/
def dotChar (c : Char) : Bool :=
  !(c = '\n' || c = '\r' || c = '\u2028' || c = '\u2029')

/-- Model of JavaScript `str.split('\n')` at the character-list level. -/
def splitNl : List Char → List (List Char)
  | [] => [[]]
  | c :: rest =>
    if c = '\n' then [] :: splitNl rest
    else
      match splitNl rest with
      | [] => [[c]]
      | l :: ls => (c :: l) :: ls

/-- Model of JavaScript `lines.join('\n')` at the character-list level. -/
def joinNl : List (List Char) → List Char
  | [] => []
  | [l] => l
  | l :: ls => l ++ '\n' :: joinNl ls

/-- `split('\n')` lifted to `String`. -/
def splitLines (s : String) : List String :=
  (splitNl s.data).map String.mk

/-- `join('\n')` lifted to `String`. -/
def joinLines (ls : List String) : String :=
  ⟨joinNl (ls.map String.data)⟩

/-- Model of JavaScript `String.prototype.trim` (used on a line to detect
the terminal `</script>` marker). -/
def trimJs (s : String) : String :=
  ⟨((s.data.dropWhile jsWs).reverse.dropWhile jsWs).reverse⟩

/-- Does `pat` occur contiguously inside `hay`?  Model of JavaScript
`hay.includes(pat)`. -/
def occursIn (pat : List Char) : List Char → Bool
  | [] => pat.isEmpty
  | c :: cs => decide ((c :: cs).take pat.length = pat) || occursIn pat cs

/-- `String`-level `includes`. -/
def includesSub (hay pat : String) : Bool :=
  occursIn pat.data hay.data

/-! ## Section banner matching

`SECTION_BANNER_RE = /^\s*\/\/ =+ (.+?) =+\s*$/`.  The lazy group `(.+?)`
is modelled by `lazyCapture`, which returns the shortest non-empty capture
whose suffix still matches ` =+\s*$`. -/

/-- Does `rest` match the regular-expression tail ` =+\s*$`? -/
def tailEqRun : List Char → Bool
  | ' ' :: rest =>
    let eqs := rest.takeWhile (fun c => c = '=')
    let rest2 := rest.dropWhile (fun c => c = '=')
    !eqs.isEmpty && rest2.all jsWs
  | _ => false

/-- Shortest non-empty capture for the lazy group `(.+?)` followed by
` =+\s*$`; every captured character must be in the `.` class. -/
def lazyCapture : List Char → Option (List Char)
  | [] => none
  | c :: cs => if dotChar c then lazyCapture.go [c] cs else none
where
  /- `tailEqRun [] = false` definitionally, so the empty case returns
  `none` exactly as the backtracking search would. -/
  go (acc : List Char) : List Char → Option (List Char)
    | [] => none
    | c :: cs =>
      if tailEqRun (c :: cs) then some acc
      else if dotChar c then go (acc ++ [c]) cs else none

/-- Match one line against `SECTION_BANNER_RE`, returning the captured
banner name. -/
def bannerMatch (line : String) : Option String :=
  match line.data.dropWhile jsWs with
  | '/' :: '/' :: ' ' :: cs2 =>
    if (cs2.takeWhile (fun c => c = '=')).isEmpty then none
    else
      match cs2.dropWhile (fun c => c = '=') with
      | ' ' :: cs4 => (lazyCapture cs4).map String.mk
      | _ => none
  | _ => none

/-! ## Data model -/

/-- A parsed section: its banner line (kept verbatim), the captured banner
name, and the body lines between this banner and the next banner or the
terminal `</script>` line.  Mirrors the object literal built in
`parseIntoSections`. -/
structure Section where
  bannerLine : String
  bannerName : String
  bodyLines : List String
deriving DecidableEq, Repr

/-- Result of `parseIntoSections`: preamble lines, ordered sections, and
the postamble from the terminal `</script>` line onward. -/
structure ParseResult where
  preScriptLines : List String
  sections : List Section
  postScriptLines : List String
deriving DecidableEq, Repr

/-- One entry of a proposal's `sectionChanges` array. -/
structure SectionChange where
  sectionName : String
  content : String
deriving DecidableEq, Repr

/-- The identifier map `SECTION_MAP` (tool enum → banner text), in source
order. -/
def SECTION_MAP : List (String × String) :=
  [("CONFIG", "CONFIG"),
   ("SKETCH_HELPERS", "SKETCH HELPERS"),
   ("CANVAS", "CANVAS"),
   ("STATE", "STATE"),
   ("INPUT", "INPUT"),
   ("UPGRADES", "UPGRADES"),
   ("PLAYER_UPDATE", "PLAYER UPDATE"),
   ("ENEMIES", "ENEMIES"),
   ("PROJECTILES", "PROJECTILES"),
   ("KILL_XP", "KILL / XP"),
   ("PARTICLES", "PARTICLES"),
   ("DRAW", "DRAW"),
   ("HUD", "HUD"),
   ("GAME_OVER", "GAME OVER"),
   ("AUDIO", "AUDIO"),
   ("DEXSCREENER_GROWTH", "DEXSCREENER + GROWTH SYSTEM"),
   ("GAME_LOOP", "GAME LOOP"),
   ("START_RESTART", "START / RESTART"),
   ("INIT", "INIT")]

/-- `SECTION_MAP[name]` as an option-valued lookup. -/
def sectionMapLookup (name : String) : Option String :=
  (SECTION_MAP.find? (fun p => p.1 == name)).map (fun p => p.2)

/-! ## Section parser (`parseIntoSections`) -/

/-- `if (currentSection) sections.push(currentSection)`. -/
def closeCur (secs : List Section) : Option Section → List Section
  | none => secs
  | some s => secs ++ [s]

/-- The scanning loop of `parseIntoSections`.  `cur = none` holds exactly
while the scan is still in the preamble (before the first banner); the
JavaScript `inPreamble` flag coincides with it, since the only way the
current section is cleared mid-scan is the terminating `</script>` branch,
which stops the loop. -/
def parseLoop : List String → List String → List Section → Option Section → ParseResult
  | [], pre, secs, cur =>
    { preScriptLines := pre
      sections := closeCur secs cur
      postScriptLines := [] }
  | line :: rest, pre, secs, cur =>
    match bannerMatch line, cur with
    | some name, _ =>
      parseLoop rest pre (closeCur secs cur)
        (some { bannerLine := line, bannerName := name, bodyLines := [] })
    | none, some s =>
      if trimJs line = "</script>" then
        { preScriptLines := pre
          sections := secs ++ [s]
          postScriptLines := line :: rest }
      else
        parseLoop rest pre secs (some { s with bodyLines := s.bodyLines ++ [line] })
    | none, none => parseLoop rest (pre ++ [line]) secs none

/-- `parseIntoSections(html)` from the source. -/
def parseIntoSections (html : String) : ParseResult :=
  parseLoop (splitLines html) [] [] none

/-! ## Section applier (`applySectionChanges`) -/

/-- Replace the body of the first section whose `bannerName` equals
`banner` (the `sections.find(...)` followed by the in-place body
assignment); `none` when no section matches. -/
def replaceFirst (secs : List Section) (banner : String) (newBody : List String) :
    Option (List Section) :=
  match secs with
  | [] => none
  | s :: rest =>
    if s.bannerName = banner then some ({ s with bodyLines := newBody } :: rest)
    else (replaceFirst rest banner newBody).map (fun r => s :: r)

/-- The body of the `for (const change of sectionChanges)` loop: resolve
the identifier through `SECTION_MAP` (throwing `Unknown section name` when
absent), locate the first matching section (throwing `Section not found`
when absent), and overwrite its body. -/
def applyOneChange (secs : List Section) (change : SectionChange) :
    Except String (List Section) :=
  match sectionMapLookup change.sectionName with
  | none => .error ("Unknown section name: " ++ change.sectionName)
  | some banner =>
    match replaceFirst secs banner (splitLines change.content) with
    | none => .error ("Section not found in index.html: \"" ++ banner ++ "\"")
    | some secs2 => .ok secs2

/-- `flatMap((s) => [s.bannerLine, ...s.bodyLines])`. -/
def renderSections : List Section → List String
  | [] => []
  | s :: rest => s.bannerLine :: s.bodyLines ++ renderSections rest

/-- Reassembly: `preScriptLines ++ flattened sections ++ postScriptLines`. -/
def reassembleLines (pre : List String) (secs : List Section) (post : List String) :
    List String :=
  pre ++ renderSections secs ++ post

/-- `applySectionChanges(html, sectionChanges)` from the source, with the
two `throw`s modelled as `Except.error`. -/
def applySectionChanges (html : String) (sectionChanges : List SectionChange) :
    Except String String :=
  let parsed := parseIntoSections html
  match sectionChanges.foldlM applyOneChange parsed.sections with
  | .error e => .error e
  | .ok secs =>
    .ok (joinLines (reassembleLines parsed.preScriptLines secs parsed.postScriptLines))

/-! ## Version helpers -/

/-- The character class of `[\d.]`. -/
def isVerChar (c : Char) : Bool := c.isDigit || c = '.'

/-- The literal part `Arena Survivor v` of the version patterns. -/
def litChars : List Char := "Arena Survivor v".data

/-- The greedy `[\d.]+` run found right after position 16 of `xs` (the
candidate numeric portion when `litChars` matches at the head). -/
def verRun (xs : List Char) : List Char :=
  (xs.drop 16).takeWhile isVerChar

/-- Fuel-driven scanning loop for the global replacement; the fuel is an
upper bound on the input length, so the out-of-fuel branch is never
reached from `updateVersionChars` (see `updateVersionChars_cons`). -/
def updGo (ver : List Char) : Nat → List Char → List Char
  | _, [] => []
  | 0, l => l
  | fuel + 1, c :: cs =>
    if (c :: cs).take 16 = litChars ∧ verRun (c :: cs) ≠ [] then
      litChars ++ ver ++ updGo ver fuel (((c :: cs).drop 16).dropWhile isVerChar)
    else
      c :: updGo ver fuel cs

/-- Global replacement `html.replace(/Arena Survivor v[\d.]+/g, ...)` over
a character list: scan left to right; at a match, emit the literal plus
the new version and resume after the matched text; otherwise copy one
character. -/
def updateVersionChars (ver : List Char) (l : List Char) : List Char :=
  updGo ver l.length l

/-- `updateVersionString(html, newVersion)` from the source. -/
def updateVersionString (html newVersion : String) : String :=
  ⟨updateVersionChars newVersion.data html.data⟩

/-- Capture attempt of `/Arena Survivor v(\d+\.\d+)/` at the head of
`xs`. -/
def verCaptureAt (xs : List Char) : Option (List Char) :=
  if xs.take 16 = litChars then
    let rest := xs.drop 16
    let d1 := rest.takeWhile Char.isDigit
    let r1 := rest.dropWhile Char.isDigit
    if d1.isEmpty then none
    else
      match r1 with
      | '.' :: r2 =>
        let d2 := r2.takeWhile Char.isDigit
        if d2.isEmpty then none else some (d1 ++ '.' :: d2)
      | _ => none
  else none

/-- First (leftmost) match of the version-extraction pattern. -/
def firstVersionMatch : List Char → Option (List Char)
  | [] => none
  | c :: cs =>
    match verCaptureAt (c :: cs) with
    | some v => some v
    | none => firstVersionMatch cs

/-- `getCurrentVersion(html)` from the source: first captured numeric
version, defaulting to `0.00`. -/
def getCurrentVersion (html : String) : String :=
  match firstVersionMatch html.data with
  | some v => String.mk v
  | none => "0.00"

/-! ## Validation (`validate`) -/

/-- The required-banner loop of `validate`, pushing one error message per
missing banner text, in `SECTION_MAP` order. -/
def bannerErrors (html : String) : List String → List String
  | [] => []
  | b :: rest =>
    (if includesSub html b then [] else ["Missing section banner: \"" ++ b ++ "\""]) ++
      bannerErrors html rest

/-- First occurrence split: `cs = before ++ pat ++ after` at the leftmost
occurrence of `pat`. -/
def splitFirstAt (pat : List Char) : List Char → Option (List Char × List Char)
  | [] => none
  | c :: cs =>
    if (c :: cs).take pat.length = pat then some ([], (c :: cs).drop pat.length)
    else
      match splitFirstAt pat cs with
      | none => none
      | some (a, b) => some (c :: a, b)

/-- The region matched by the lazy group of
`/<script>([\s\S]*?)<\/script>/`: the characters between the first
`<script>` and the first `</script>` after it. -/
def extractScript (cs : List Char) : Option (List Char) :=
  match splitFirstAt ("<script>").data cs with
  | none => none
  | some (_, rest) =>
    match splitFirstAt ("</script>").data rest with
    | none => none
    | some (js, _) => some js

/-- `validate(html)` from the source: all checks run, every violation
collected, in source push order. -/
def validate (html : String) : List String :=
  let e1 := if includesSub html "</script>" then [] else ["Missing </script> tag"]
  let e2 := if includesSub html "</html>" then [] else ["Missing </html> tag"]
  let e3 := bannerErrors html (SECTION_MAP.map (fun p => p.2))
  let lineCount := (splitLines html).length
  let e4 :=
    if 4000 < lineCount then
      ["File too large: " ++ toString lineCount ++ " lines (max 4000)"]
    else []
  let e5 :=
    match extractScript html.data with
    | none => []
    | some js =>
      let braces : Int :=
        ((js.filter (fun c => c = '\x7b')).length : Int) -
          ((js.filter (fun c => c = '\x7d')).length : Int)
      if braces ≠ 0 then
        ["Brace imbalance in <script>: " ++ (if 0 < braces then "+" else "") ++
          toString braces]
      else []
  e1 ++ e2 ++ e3 ++ e4 ++ e5

/-! ## Orchestrator (`main`, steps 5–9)

The on-disk state is modelled explicitly: the live document, the auxiliary
reference document, and the list of archive snapshots (filename, content).
`runPipeline` models `main` from the point where the proposal is in hand:
apply in memory, rewrite the version, validate, and abort / dry-run-exit /
persist.  The `.bak` copy made in step 9 is created and deleted within the
successful write and is not part of the observable end state. -/

/-- On-disk state touched by the persistence phase. -/
structure FS where
  index : String
  reference : String
  archive : List (String × String)
deriving DecidableEq, Repr

/-- The `apply_mutation` tool payload. -/
structure Mutation where
  versionNumber : String
  versionType : String
  summary : String
  changelog : String
  sectionChanges : List SectionChange
  referenceDoc : String
deriving DecidableEq, Repr

/-- How one invocation of the orchestrator ends. -/
inductive RunOutcome
  | abortedApply
  | abortedValidation
  | dryRunDone
  | persisted
deriving DecidableEq, Repr

/-- Steps 5–9 of `main`: apply section changes, rewrite the version,
validate (aborting on errors unless in dry-run mode), exit without writing
in dry-run mode, archive the pre-mutation document when the bump is MAJOR,
then overwrite the live document and the reference document. -/
def runPipeline (dryRun : Bool) (fs : FS) (m : Mutation) : FS × RunOutcome :=
  let currentVersion := getCurrentVersion fs.index
  match applySectionChanges fs.index m.sectionChanges with
  | .error _ => (fs, .abortedApply)
  | .ok applied =>
    let newHtml := updateVersionString applied m.versionNumber
    let errors := validate newHtml
    if errors ≠ [] ∧ dryRun = false then (fs, .abortedValidation)
    else if dryRun then (fs, .dryRunDone)
    else
      let fs1 :=
        if m.versionType = "MAJOR" then
          { fs with archive := fs.archive ++ [("v" ++ currentVersion ++ ".html", fs.index)] }
        else fs
      ({ fs1 with index := newHtml, reference := m.referenceDoc }, .persisted)

/-! ## Spec-side predicates for the version watermark -/

/-- A *stale token* sits at the head of `xs`: the literal matches, a
non-empty numeric run follows, and that run differs from `ver`. -/
def staleAt (ver xs : List Char) : Bool :=
  decide (xs.take 16 = litChars ∧ verRun xs ≠ [] ∧ verRun xs ≠ ver)

/-- Does the text contain a stale version token anywhere? -/
def hasStale (ver : List Char) : List Char → Bool
  | [] => false
  | c :: cs => staleAt ver (c :: cs) || hasStale ver cs

/-- Does the text contain any occurrence of the version token pattern
`Arena Survivor v[\d.]+`? -/
def hasToken : List Char → Bool
  | [] => false
  | c :: cs =>
    decide ((c :: cs).take 16 = litChars ∧ verRun (c :: cs) ≠ []) || hasToken cs

/-- The lines contributed by the still-open section of the scan. -/
def renderCur : Option Section → List String
  | none => []
  | some s => s.bannerLine :: s.bodyLines

/-- Reassemble a full parse result into its list of lines. -/
def reassembleOf (p : ParseResult) : List String :=
  p.preScriptLines ++ renderSections p.sections ++ p.postScriptLines

/-! ## Version-scan recursion lemmas -/

/-- Length bound justifying termination of the version-replacement
scan. -/
theorem dropVerRunShorter (c : Char) (cs : List Char) :
    (((c :: cs).drop 16).dropWhile isVerChar).length < (c :: cs).length := by
  have h1 : List.Sublist (((c :: cs).drop 16).dropWhile isVerChar) ((c :: cs).drop 16) :=
    List.dropWhile_sublist _
  have h2 := h1.length_le
  have h3 : ((c :: cs).drop 16).length = (c :: cs).length - 16 :=
    List.length_drop _ _
  simp only [List.length_cons] at *
  omega

theorem updGo_fuel_irrel (ver : List Char) :
    ∀ (f1 : Nat) (l : List Char) (f2 : Nat), l.length ≤ f1 → l.length ≤ f2 →
      updGo ver f1 l = updGo ver f2 l := by
  intro f1
  induction f1 with
  | zero =>
    intro l f2 h1 _
    have : l = [] := List.eq_nil_of_length_eq_zero (Nat.le_zero.mp h1)
    subst this
    cases f2 <;> rfl
  | succ f1 ih =>
    intro l f2 h1 h2
    cases l with
    | nil => cases f2 <;> rfl
    | cons c cs =>
      cases f2 with
      | zero => simp at h2
      | succ f2 =>
        simp only [updGo]
        simp only [List.length_cons, Nat.add_le_add_iff_right] at h1 h2
        split
        · have hlt := dropVerRunShorter c cs
          simp only [List.length_cons] at hlt
          rw [ih (((c :: cs).drop 16).dropWhile isVerChar) f2 (by omega) (by omega)]
        · rw [ih cs f2 h1 h2]

theorem updateVersionChars_nil (ver : List Char) :
    updateVersionChars ver [] = [] := rfl

/-- The source-level recursion of the replacement scan. -/
theorem updateVersionChars_cons (ver : List Char) (c : Char) (cs : List Char) :
    updateVersionChars ver (c :: cs) =
      if (c :: cs).take 16 = litChars ∧ verRun (c :: cs) ≠ [] then
        litChars ++ ver ++ updateVersionChars ver (((c :: cs).drop 16).dropWhile isVerChar)
      else
        c :: updateVersionChars ver cs := by
  show updGo ver (cs.length + 1) (c :: cs) = _
  simp only [updGo]
  split
  · have hlt := dropVerRunShorter c cs
    simp only [List.length_cons] at hlt
    unfold updateVersionChars
    rw [updGo_fuel_irrel ver cs.length (((c :: cs).drop 16).dropWhile isVerChar)
      ((((c :: cs).drop 16).dropWhile isVerChar).length) (by omega) (by omega)]
  · rfl

/-! ## Split/join round trip -/

theorem splitNl_ne_nil (cs : List Char) : splitNl cs ≠ [] := by
  cases cs with
  | nil => simp [splitNl]
  | cons c rest =>
    unfold splitNl
    split
    · simp
    · split <;> simp

theorem joinNl_splitNl (cs : List Char) : joinNl (splitNl cs) = cs := by
  induction cs with
  | nil => rfl
  | cons c rest ih =>
    unfold splitNl
    by_cases h : c = '\n'
    · subst h
      simp only [if_pos rfl]
      cases heq : splitNl rest with
      | nil => exact absurd heq (splitNl_ne_nil rest)
      | cons l ls =>
        rw [heq] at ih
        simpa [joinNl] using ih
    · simp only [if_neg h]
      cases heq : splitNl rest with
      | nil => exact absurd heq (splitNl_ne_nil rest)
      | cons l ls =>
        rw [heq] at ih
        cases ls with
        | nil => simpa [joinNl] using ih
        | cons l2 ls2 =>
          simp only [joinNl, List.cons_append] at ih ⊢
          rw [ih]

theorem joinLines_splitLines (s : String) : joinLines (splitLines s) = s := by
  unfold joinLines splitLines
  rw [List.map_map]
  have h : (String.data ∘ String.mk) = id := rfl
  rw [h, List.map_id, joinNl_splitNl]

/-! ## Parser round trip -/

theorem renderSections_append (a b : List Section) :
    renderSections (a ++ b) = renderSections a ++ renderSections b := by
  induction a with
  | nil => rfl
  | cons s rest ih => simp [renderSections, ih]

/-- Invariant of the scanning loop: reassembling the final parse result
reproduces the already-consumed lines followed by the unread remainder.
Every line ends up in exactly one of preamble, a banner line, a body, or
the postamble, in original order.  The side condition (`secs` is empty
while the scan is still in the preamble) holds at the initial call and is
preserved throughout. -/
theorem parseLoop_reassemble (rest : List String) :
    ∀ pre secs cur, (cur = none → secs = []) →
      reassembleOf (parseLoop rest pre secs cur) =
        pre ++ renderSections secs ++ renderCur cur ++ rest := by
  induction rest with
  | nil =>
    intro pre secs cur _
    cases cur with
    | none => simp [parseLoop, closeCur, reassembleOf, renderSections_append, renderCur]
    | some s =>
      simp [parseLoop, closeCur, reassembleOf, renderSections_append, renderCur,
        renderSections]
  | cons line rest ih =>
    intro pre secs cur hpre
    rw [parseLoop.eq_def]
    cases hbm : bannerMatch line with
    | some name =>
      cases cur with
      | none =>
        rw [hpre rfl]
        simp only [hbm, closeCur]
        rw [ih pre [] (some { bannerLine := line, bannerName := name, bodyLines := [] })
          (fun h => Option.noConfusion h)]
        simp [renderSections, renderCur]
      | some s =>
        simp only [hbm, closeCur]
        rw [ih pre (secs ++ [s])
          (some { bannerLine := line, bannerName := name, bodyLines := [] })
          (fun h => Option.noConfusion h)]
        simp [renderSections_append, renderSections, renderCur]
    | none =>
      cases cur with
      | some s =>
        by_cases ht : trimJs line = "</script>"
        · simp [hbm, ht, reassembleOf, renderCur, renderSections, renderSections_append]
        · simp only [hbm, ht, if_false, if_neg ht]
          rw [ih pre secs (some { s with bodyLines := s.bodyLines ++ [line] })
            (fun h => Option.noConfusion h)]
          simp [renderCur, renderSections]
      | none =>
        rw [hpre rfl]
        simp only [hbm]
        rw [ih (pre ++ [line]) [] none (fun _ => rfl)]
        simp [renderSections, renderCur]

/-- C2: parsing a document into (preamble, sections, postamble) and
reassembling `preamble ++ flatten(markerLine, body) ++ postamble` (the
reassembly performed by `applySectionChanges` with an empty change list)
returns the document unchanged.  This holds for every document — in
particular for every document with well-formed, non-overlapping markers,
as the claim states. -/
theorem claim_C2_parse_reassemble_round_trip (html : String) :
    applySectionChanges html [] = .ok html := by
  have h := parseLoop_reassemble (splitLines html) [] [] none (fun _ => rfl)
  simp only [renderSections, renderCur, List.nil_append] at h
  unfold applySectionChanges parseIntoSections
  simp only [List.foldlM_nil]
  show Except.ok (joinLines (reassembleLines _ _ _)) = Except.ok html
  have hre :
      reassembleLines (parseLoop (splitLines html) [] [] none).preScriptLines
        (parseLoop (splitLines html) [] [] none).sections
        (parseLoop (splitLines html) [] [] none).postScriptLines =
      reassembleOf (parseLoop (splitLines html) [] [] none) := rfl
  rw [hre, h, joinLines_splitLines]

/-! ## Applier lemmas -/

theorem replaceFirst_eq_none (secs : List Section) (banner : String) (nb : List String)
    (h : ∀ s ∈ secs, s.bannerName ≠ banner) :
    replaceFirst secs banner nb = none := by
  induction secs with
  | nil => rfl
  | cons s rest ih =>
    unfold replaceFirst
    rw [if_neg (h s (List.mem_cons_self s rest))]
    rw [ih (fun t ht => h t (List.mem_cons_of_mem s ht))]
    rfl

theorem replaceFirst_skip (u : List Section) (s : Section) (w : List Section)
    (banner : String) (nb : List String)
    (hs : s.bannerName = banner) (hu : ∀ t ∈ u, t.bannerName ≠ banner) :
    replaceFirst (u ++ s :: w) banner nb =
      some (u ++ { s with bodyLines := nb } :: w) := by
  induction u with
  | nil =>
    simp only [List.nil_append]
    unfold replaceFirst
    rw [if_pos hs]
  | cons t rest ih =>
    simp only [List.cons_append]
    unfold replaceFirst
    rw [if_neg (hu t (List.mem_cons_self t rest))]
    rw [ih (fun t' ht' => hu t' (List.mem_cons_of_mem t ht'))]
    rfl

/-- Re-applying a replacement at the same banner overwrites the same
(first-matching) section, so the earlier replacement is invisible. -/
theorem replaceFirst_last_wins (secs : List Section) (banner : String)
    (nb nb2 : List String) (secs2 : List Section)
    (h : replaceFirst secs banner nb = some secs2) :
    replaceFirst secs2 banner nb2 = replaceFirst secs banner nb2 := by
  induction secs generalizing secs2 with
  | nil => simp [replaceFirst] at h
  | cons s rest ih =>
    by_cases hb : s.bannerName = banner
    · simp only [replaceFirst, if_pos hb] at h
      cases h
      simp [replaceFirst, hb]
    · simp only [replaceFirst, if_neg hb] at h
      cases hr : replaceFirst rest banner nb with
      | none => rw [hr] at h; simp at h
      | some r2 =>
        rw [hr] at h
        simp only [Option.map] at h
        cases h
        simp [replaceFirst, hb, ih r2 hr]

/-- Banner names are unchanged by a body replacement. -/
theorem replaceFirst_bannerNames (secs : List Section) (banner : String)
    (nb : List String) (secs2 : List Section)
    (h : replaceFirst secs banner nb = some secs2) :
    secs2.map Section.bannerName = secs.map Section.bannerName := by
  induction secs generalizing secs2 with
  | nil => simp [replaceFirst] at h
  | cons s rest ih =>
    by_cases hb : s.bannerName = banner
    · simp only [replaceFirst, if_pos hb] at h
      cases h
      rfl
    · simp only [replaceFirst, if_neg hb] at h
      cases hr : replaceFirst rest banner nb with
      | none => rw [hr] at h; simp at h
      | some r2 =>
        rw [hr] at h
        simp only [Option.map] at h
        cases h
        simp [ih r2 hr]

/-- Whether `replaceFirst` finds a section does not depend on the
replacement body. -/
theorem replaceFirst_none_any (secs : List Section) (banner : String)
    (nb nb2 : List String) (h : replaceFirst secs banner nb = none) :
    replaceFirst secs banner nb2 = none := by
  induction secs with
  | nil => rfl
  | cons s rest ih =>
    by_cases hb : s.bannerName = banner
    · simp only [replaceFirst, if_pos hb] at h
      exact Option.noConfusion h
    · simp only [replaceFirst, if_neg hb] at h ⊢
      cases hr : replaceFirst rest banner nb with
      | none => rw [ih hr]; rfl
      | some r2 => rw [hr] at h; simp at h

/-- Zeta-reduced unfolding of `applySectionChanges`. -/
theorem applySectionChanges_eq (html : String) (changes : List SectionChange) :
    applySectionChanges html changes =
      match changes.foldlM applyOneChange (parseIntoSections html).sections with
      | .error e => .error e
      | .ok secs =>
        .ok (joinLines (reassembleLines (parseIntoSections html).preScriptLines secs
          (parseIntoSections html).postScriptLines)) := rfl

theorem foldlM_except_nil {α β : Type} (f : β → α → Except String β) (b : β) :
    ([] : List α).foldlM f b = .ok b := rfl

theorem foldlM_except_cons_error {α β : Type} (f : β → α → Except String β) (b : β)
    (a : α) (l : List α) (e : String) (h : f b a = .error e) :
    (a :: l).foldlM f b = .error e := by
  rw [List.foldlM_cons, h]
  rfl

theorem foldlM_except_cons_ok {α β : Type} (f : β → α → Except String β) (b : β)
    (a : α) (l : List α) (b2 : β) (h : f b a = .ok b2) :
    (a :: l).foldlM f b = l.foldlM f b2 := by
  rw [List.foldlM_cons, h]
  rfl

/-- C3: on a document that parses into three sections `a`, `b`, `c`, a
single change whose identifier resolves to `b`'s banner (and does not
collide with `a`'s) replaces exactly `b`'s body: the reassembled document
keeps the preamble, `a`'s banner line and body, `b`'s banner line, `c`'s
banner line and body, and the postamble byte-identical and in original
order, with `b`'s body replaced by the split lines of `x`. -/
theorem claim_C3_targeted_replacement_isolation (html : String) (a b c : Section)
    (pre post : List String) (ident x : String)
    (hp : parseIntoSections html = ⟨pre, [a, b, c], post⟩)
    (hm : sectionMapLookup ident = some b.bannerName)
    (hab : a.bannerName ≠ b.bannerName) :
    applySectionChanges html [{ sectionName := ident, content := x }] =
      .ok (joinLines (pre ++ (a.bannerLine :: a.bodyLines) ++
        (b.bannerLine :: splitLines x) ++ (c.bannerLine :: c.bodyLines) ++ post)) := by
  have hr : replaceFirst [a, b, c] b.bannerName (splitLines x) =
      some [a, { b with bodyLines := splitLines x }, c] := by
    have hu : ∀ t ∈ [a], t.bannerName ≠ b.bannerName := by
      intro t ht
      rw [List.mem_singleton] at ht
      subst ht
      exact hab
    simpa using replaceFirst_skip [a] b [c] b.bannerName (splitLines x) rfl hu
  have h1 : applyOneChange [a, b, c] { sectionName := ident, content := x } =
      .ok [a, { b with bodyLines := splitLines x }, c] := by
    simp [applyOneChange, hm, hr]
  rw [applySectionChanges_eq, hp]
  simp only []
  rw [foldlM_except_cons_ok _ _ _ _ _ h1, foldlM_except_nil]
  simp [reassembleLines, renderSections]

/-- C4: a change whose identifier is absent from `SECTION_MAP` makes
`applySectionChanges` fail with the unknown-identifier error; a change
whose identifier resolves to a banner text matching no parsed section
fails with the section-not-found error; and whenever
`applySectionChanges` fails, the orchestrator aborts before validation
and persistence, leaving the on-disk state untouched. -/
theorem claim_C4_unknown_identifier_and_missing_marker :
    (∀ (html : String) (c : SectionChange) (rest : List SectionChange),
      sectionMapLookup c.sectionName = none →
        applySectionChanges html (c :: rest) =
          .error ("Unknown section name: " ++ c.sectionName)) ∧
    (∀ (html : String) (c : SectionChange) (rest : List SectionChange) (banner : String),
      sectionMapLookup c.sectionName = some banner →
      (∀ s ∈ (parseIntoSections html).sections, s.bannerName ≠ banner) →
        applySectionChanges html (c :: rest) =
          .error ("Section not found in index.html: \"" ++ banner ++ "\"")) ∧
    (∀ (dryRun : Bool) (fs : FS) (m : Mutation) (e : String),
      applySectionChanges fs.index m.sectionChanges = .error e →
        runPipeline dryRun fs m = (fs, .abortedApply)) := by
  refine ⟨?_, ?_, ?_⟩
  · intro html c rest hmap
    rw [applySectionChanges_eq]
    rw [foldlM_except_cons_error _ _ _ _ ("Unknown section name: " ++ c.sectionName)
      (by simp [applyOneChange, hmap])]
  · intro html c rest banner hmap hnone
    rw [applySectionChanges_eq]
    rw [foldlM_except_cons_error _ _ _ _
      ("Section not found in index.html: \"" ++ banner ++ "\"")
      (by simp [applyOneChange, hmap, replaceFirst_eq_none _ _ _ hnone])]
  · intro dryRun fs m e herr
    unfold runPipeline
    rw [herr]

/-- C8 counterexample: a proposal listing the same identifier twice is
not rejected — `applySectionChanges` succeeds (here the second change's
content `y` wins), contradicting the claim that duplicate identifiers
make the patch application fail. -/
theorem claim_C8_counterexample :
    applySectionChanges "// = CONFIG =\nold"
        [{ sectionName := "CONFIG", content := "x" },
         { sectionName := "CONFIG", content := "y" }] =
      .ok "// = CONFIG =\ny" := by rfl

/-- C8 (amended): duplicate identifiers in one proposal are not detected
as an error; the changes are applied in order to the same
(first-matching) section, so the last occurrence's content wins — the
result is exactly that of a proposal containing only the last change. -/
theorem claim_C8_amended_duplicates_last_wins (html i x y : String) :
    applySectionChanges html
        [{ sectionName := i, content := x }, { sectionName := i, content := y }] =
      applySectionChanges html [{ sectionName := i, content := y }] := by
  rw [applySectionChanges_eq, applySectionChanges_eq]
  cases hm : sectionMapLookup i with
  | none =>
    rw [foldlM_except_cons_error _ _ _ _ ("Unknown section name: " ++ i)
          (by simp [applyOneChange, hm]),
        foldlM_except_cons_error _ _ _ _ ("Unknown section name: " ++ i)
          (by simp [applyOneChange, hm])]
  | some banner =>
    cases hr : replaceFirst (parseIntoSections html).sections banner (splitLines x) with
    | none =>
      have hr2 : replaceFirst (parseIntoSections html).sections banner (splitLines y) =
          none := replaceFirst_none_any _ _ _ _ hr
      rw [foldlM_except_cons_error _ _ _ _
            ("Section not found in index.html: \"" ++ banner ++ "\"")
            (by simp [applyOneChange, hm, hr]),
          foldlM_except_cons_error _ _ _ _
            ("Section not found in index.html: \"" ++ banner ++ "\"")
            (by simp [applyOneChange, hm, hr2])]
    | some secs1 =>
      rw [foldlM_except_cons_ok _ _ _ _ secs1 (by simp [applyOneChange, hm, hr])]
      cases hr2 : replaceFirst (parseIntoSections html).sections banner (splitLines y) with
      | none =>
        have hr3 : replaceFirst secs1 banner (splitLines y) = none := by
          rw [replaceFirst_last_wins _ _ _ _ _ hr]
          exact hr2
        rw [foldlM_except_cons_error _ _ _ _
              ("Section not found in index.html: \"" ++ banner ++ "\"")
              (by simp [applyOneChange, hm, hr3]),
            foldlM_except_cons_error _ _ _ _
              ("Section not found in index.html: \"" ++ banner ++ "\"")
              (by simp [applyOneChange, hm, hr2])]
      | some secs2 =>
        have hr3 : replaceFirst secs1 banner (splitLines y) = some secs2 := by
          rw [replaceFirst_last_wins _ _ _ _ _ hr]
          exact hr2
        rw [foldlM_except_cons_ok _ _ _ _ secs2 (by simp [applyOneChange, hm, hr3]),
            foldlM_except_cons_ok _ _ _ _ secs2 (by simp [applyOneChange, hm, hr2])]

/-- The version-rewrite scan is the identity when no token occurs. -/
theorem updateVersionChars_id_of_no_token (ver : List Char) (l : List Char)
    (h : hasToken l = false) : updateVersionChars ver l = l := by
  induction l with
  | nil => rfl
  | cons c cs ih =>
    simp only [hasToken, Bool.or_eq_false_iff, decide_eq_false_iff_not] at h
    rw [updateVersionChars_cons, if_neg h.1, ih h.2]

/-- C9: a document containing no occurrence of the version token pattern
`Arena Survivor v[\d.]+` is returned unchanged by `updateVersionString`,
for every new version string. -/
theorem claim_C9_rewrite_identity_without_token (html newVersion : String)
    (h : hasToken html.data = false) :
    updateVersionString html newVersion = html := by
  unfold updateVersionString
  rw [updateVersionChars_id_of_no_token _ _ h]

/-- C10: when the parsed document contains two sections with the same
banner text (`s1` before `s2`), a change targeting that banner replaces
only the body of the first one (`s1`); `s2` and every other section are
reproduced unchanged and in order. -/
theorem claim_C10_duplicate_marker_first_only (html : String)
    (pre post : List String) (u v w : List Section) (s1 s2 : Section)
    (ident x : String)
    (hp : parseIntoSections html = ⟨pre, u ++ s1 :: v ++ s2 :: w, post⟩)
    (hm : sectionMapLookup ident = some s1.bannerName)
    (_hdup : s2.bannerName = s1.bannerName)
    (hu : ∀ s ∈ u, s.bannerName ≠ s1.bannerName) :
    applySectionChanges html [{ sectionName := ident, content := x }] =
      .ok (joinLines (reassembleLines pre
        (u ++ { s1 with bodyLines := splitLines x } :: v ++ s2 :: w) post)) := by
  have hr := replaceFirst_skip u s1 (v ++ s2 :: w) s1.bannerName (splitLines x) rfl hu
  have h1 : applyOneChange (u ++ s1 :: v ++ s2 :: w)
      { sectionName := ident, content := x } =
      .ok (u ++ { s1 with bodyLines := splitLines x } :: v ++ s2 :: w) := by
    simp [applyOneChange, hm, hr]
  rw [applySectionChanges_eq, hp]
  simp only []
  rw [foldlM_except_cons_ok _ _ _ _ _ h1, foldlM_except_nil]

/-! ## Orchestrator and validator claims -/

/-- Zeta-reduced unfolding of `runPipeline`. -/
theorem runPipeline_eq (dryRun : Bool) (fs : FS) (m : Mutation) :
    runPipeline dryRun fs m =
      match applySectionChanges fs.index m.sectionChanges with
      | .error _ => (fs, .abortedApply)
      | .ok applied =>
        if validate (updateVersionString applied m.versionNumber) ≠ [] ∧ dryRun = false
        then (fs, .abortedValidation)
        else if dryRun then (fs, .dryRunDone)
        else
          ({ (if m.versionType = "MAJOR" then
              { fs with archive := fs.archive ++
                  [("v" ++ getCurrentVersion fs.index ++ ".html", fs.index)] }
            else fs) with
            index := updateVersionString applied m.versionNumber,
            reference := m.referenceDoc }, .persisted) := rfl

/-- `runPipeline` once the in-memory application has succeeded. -/
theorem runPipeline_ok_eq (dryRun : Bool) (fs : FS) (m : Mutation) (applied : String)
    (happ : applySectionChanges fs.index m.sectionChanges = .ok applied) :
    runPipeline dryRun fs m =
      (if validate (updateVersionString applied m.versionNumber) ≠ [] ∧ dryRun = false
       then (fs, .abortedValidation)
       else if dryRun then (fs, .dryRunDone)
       else
        ({ (if m.versionType = "MAJOR" then
            { fs with archive := fs.archive ++
                [("v" ++ getCurrentVersion fs.index ++ ".html", fs.index)] }
          else fs) with
          index := updateVersionString applied m.versionNumber,
          reference := m.referenceDoc }, .persisted)) := by
  rw [runPipeline_eq, happ]

/-- C1: when the validation of the reassembled, version-rewritten document
reports a non-empty error list, a non-preview run aborts with no change to
the on-disk state (live document, auxiliary reference document, archive
all byte-identical to their pre-run contents), and a preview run also
completes without writing anything. -/
theorem claim_C1_validation_failure_abort_no_trace (fs : FS) (m : Mutation)
    (applied : String)
    (happ : applySectionChanges fs.index m.sectionChanges = .ok applied)
    (herr : validate (updateVersionString applied m.versionNumber) ≠ []) :
    runPipeline false fs m = (fs, .abortedValidation) ∧
    runPipeline true fs m = (fs, .dryRunDone) := by
  constructor
  · rw [runPipeline_ok_eq false fs m applied happ, if_pos ⟨herr, rfl⟩]
  · rw [runPipeline_ok_eq true fs m applied happ, if_neg (by simp), if_pos rfl]

/-- C6: a run that reaches the persistence phase (validation passed,
non-preview) writes exactly one archive snapshot — keyed by the
pre-mutation version string and containing the pre-mutation live document
— if and only if the proposal's version class is MAJOR; a MINOR proposal
adds no snapshot.  The snapshot content is the pre-mutation `fs.index`,
i.e. it is taken before the live document is overwritten. -/
theorem claim_C6_archive_gating (fs : FS) (m : Mutation) (applied : String)
    (happ : applySectionChanges fs.index m.sectionChanges = .ok applied)
    (hok : validate (updateVersionString applied m.versionNumber) = []) :
    runPipeline false fs m =
      ({ index := updateVersionString applied m.versionNumber,
         reference := m.referenceDoc,
         archive := fs.archive ++
           (if m.versionType = "MAJOR"
            then [("v" ++ getCurrentVersion fs.index ++ ".html", fs.index)]
            else []) }, .persisted) := by
  rw [runPipeline_ok_eq false fs m applied happ, if_neg (by simp [hok]),
    if_neg (by simp)]
  by_cases ht : m.versionType = "MAJOR"
  · simp [ht]
  · simp [ht]

/-- The required-banner check contributes its error message for every
missing banner. -/
theorem bannerErrors_mem (html : String) (bs : List String) (b : String)
    (hb : b ∈ bs) (hmiss : includesSub html b = false) :
    ("Missing section banner: \"" ++ b ++ "\"") ∈ bannerErrors html bs := by
  induction bs with
  | nil => cases hb
  | cons b0 rest ih =>
    unfold bannerErrors
    rcases List.mem_cons.mp hb with h | h
    · subst h
      rw [hmiss]
      simp only [Bool.false_eq_true, if_false]
      exact List.mem_append_left _ (List.mem_singleton.mpr rfl)
    · exact List.mem_append_right _ (ih h)

/-- Unfolding of `validate` into its five independent check blocks, in
source push order. -/
theorem validate_eq (html : String) :
    validate html =
      (if includesSub html "</script>" then [] else ["Missing </script> tag"]) ++
      (if includesSub html "</html>" then [] else ["Missing </html> tag"]) ++
      bannerErrors html (SECTION_MAP.map (fun p => p.2)) ++
      (if 4000 < (splitLines html).length then
        ["File too large: " ++ toString (splitLines html).length ++ " lines (max 4000)"]
       else []) ++
      (match extractScript html.data with
       | none => []
       | some js =>
         let braces : Int :=
           ((js.filter (fun c => c = '\x7b')).length : Int) -
             ((js.filter (fun c => c = '\x7d')).length : Int)
         if braces ≠ 0 then
           ["Brace imbalance in <script>: " ++ (if 0 < braces then "+" else "") ++
             toString braces]
         else []) := rfl

/-- C7: `validate` never short-circuits: a document that both lacks a
required banner and exceeds the 4000-line ceiling reports *both*
violations in the one returned error list. -/
theorem claim_C7_validator_non_short_circuit (html : String) (b : String)
    (hb : b ∈ SECTION_MAP.map (fun p => p.2))
    (hmiss : includesSub html b = false)
    (hbig : 4000 < (splitLines html).length) :
    ("Missing section banner: \"" ++ b ++ "\"") ∈ validate html ∧
    ("File too large: " ++ toString (splitLines html).length ++ " lines (max 4000)")
      ∈ validate html := by
  rw [validate_eq]
  constructor
  · exact List.mem_append_left _ (List.mem_append_left _
      (List.mem_append_right _ (bannerErrors_mem html _ b hb hmiss)))
  · refine List.mem_append_left _ (List.mem_append_right _ ?_)
    rw [if_pos hbig]
    exact List.mem_singleton.mpr rfl

/-! ## Concrete witnesses -/

/-- Witness for C1 at a concrete run: the document `hello` fails
validation, so neither a normal run nor a preview run changes the on-disk
state. -/
theorem claim_C1_witness :
    runPipeline false { index := "hello", reference := "ref", archive := [] }
        { versionNumber := "0.02", versionType := "MINOR", summary := "s",
          changelog := "c", sectionChanges := [], referenceDoc := "newref" } =
      ({ index := "hello", reference := "ref", archive := [] }, .abortedValidation) ∧
    runPipeline true { index := "hello", reference := "ref", archive := [] }
        { versionNumber := "0.02", versionType := "MINOR", summary := "s",
          changelog := "c", sectionChanges := [], referenceDoc := "newref" } =
      ({ index := "hello", reference := "ref", archive := [] }, .dryRunDone) :=
  claim_C1_validation_failure_abort_no_trace
    { index := "hello", reference := "ref", archive := [] }
    { versionNumber := "0.02", versionType := "MINOR", summary := "s",
      changelog := "c", sectionChanges := [], referenceDoc := "newref" }
    "hello" (by rfl) (by decide)

/-- Witness for C3: replacing the middle section of a three-section
document touches only that section's body. -/
theorem claim_C3_witness :
    applySectionChanges "top\n// = CONFIG =\na1\n// = CANVAS =\nb1\n// = STATE =\nc1"
        [{ sectionName := "CANVAS", content := "NEW" }] =
      .ok "top\n// = CONFIG =\na1\n// = CANVAS =\nNEW\n// = STATE =\nc1" :=
  claim_C3_targeted_replacement_isolation
    "top\n// = CONFIG =\na1\n// = CANVAS =\nb1\n// = STATE =\nc1"
    { bannerLine := "// = CONFIG =", bannerName := "CONFIG", bodyLines := ["a1"] }
    { bannerLine := "// = CANVAS =", bannerName := "CANVAS", bodyLines := ["b1"] }
    { bannerLine := "// = STATE =", bannerName := "STATE", bodyLines := ["c1"] }
    ["top"] [] "CANVAS" "NEW" (by rfl) (by rfl) (by decide)

/-- Witness for C4: an unknown identifier and a known identifier with no
matching section both make the application fail, and a failing
application leaves the modelled file system untouched. -/
theorem claim_C4_witness :
    applySectionChanges "x" [{ sectionName := "BOGUS", content := "y" }] =
      .error ("Unknown section name: " ++ "BOGUS") ∧
    applySectionChanges "x" [{ sectionName := "CONFIG", content := "y" }] =
      .error ("Section not found in index.html: \"" ++ "CONFIG" ++ "\"") ∧
    runPipeline false { index := "x", reference := "r", archive := [] }
        { versionNumber := "0.02", versionType := "MINOR", summary := "s",
          changelog := "c",
          sectionChanges := [{ sectionName := "BOGUS", content := "y" }],
          referenceDoc := "d" } =
      ({ index := "x", reference := "r", archive := [] }, .abortedApply) :=
  ⟨claim_C4_unknown_identifier_and_missing_marker.1 "x"
      { sectionName := "BOGUS", content := "y" } [] (by rfl),
   claim_C4_unknown_identifier_and_missing_marker.2.1 "x"
      { sectionName := "CONFIG", content := "y" } [] "CONFIG" (by rfl) (by decide),
   claim_C4_unknown_identifier_and_missing_marker.2.2 false
      { index := "x", reference := "r", archive := [] }
      { versionNumber := "0.02", versionType := "MINOR", summary := "s",
        changelog := "c",
        sectionChanges := [{ sectionName := "BOGUS", content := "y" }],
        referenceDoc := "d" }
      ("Unknown section name: " ++ "BOGUS") (by rfl)⟩

/-- Witness for C9: a token-free document is returned unchanged. -/
theorem claim_C9_witness :
    hasToken ("hello world").data = false ∧
    updateVersionString "hello world" "9.99" = "hello world" :=
  ⟨by decide, claim_C9_rewrite_identity_without_token "hello world" "9.99" (by decide)⟩

/-- Witness for C10: with two sections carrying the banner `CONFIG`, only
the first one's body is replaced. -/
theorem claim_C10_witness :
    applySectionChanges "// = CONFIG =\nfirst\n// = CONFIG =\nsecond"
        [{ sectionName := "CONFIG", content := "X" }] =
      .ok "// = CONFIG =\nX\n// = CONFIG =\nsecond" :=
  claim_C10_duplicate_marker_first_only
    "// = CONFIG =\nfirst\n// = CONFIG =\nsecond" [] [] [] [] []
    { bannerLine := "// = CONFIG =", bannerName := "CONFIG", bodyLines := ["first"] }
    { bannerLine := "// = CONFIG =", bannerName := "CONFIG", bodyLines := ["second"] }
    "CONFIG" "X" (by rfl) (by rfl) (by rfl) (by decide)

set_option maxRecDepth 4096 in
/-- Witness for C6 at a concrete MAJOR run over a document that passes
validation: exactly one archive snapshot is produced, keyed by the
pre-mutation version (`0.00` by default) and containing the pre-mutation
document. -/
theorem claim_C6_witness :
    runPipeline false
        { index := "<html>\n<script>\n// = CONFIG =\n// = SKETCH HELPERS =\n// = CANVAS =\n// = STATE =\n// = INPUT =\n// = UPGRADES =\n// = PLAYER UPDATE =\n// = ENEMIES =\n// = PROJECTILES =\n// = KILL / XP =\n// = PARTICLES =\n// = DRAW =\n// = HUD =\n// = GAME OVER =\n// = AUDIO =\n// = DEXSCREENER + GROWTH SYSTEM =\n// = GAME LOOP =\n// = START / RESTART =\n// = INIT =\n</script>\n</html>",
          reference := "ref", archive := [] }
        { versionNumber := "0.02", versionType := "MAJOR", summary := "s",
          changelog := "c", sectionChanges := [], referenceDoc := "newref" } =
      ({ index := "<html>\n<script>\n// = CONFIG =\n// = SKETCH HELPERS =\n// = CANVAS =\n// = STATE =\n// = INPUT =\n// = UPGRADES =\n// = PLAYER UPDATE =\n// = ENEMIES =\n// = PROJECTILES =\n// = KILL / XP =\n// = PARTICLES =\n// = DRAW =\n// = HUD =\n// = GAME OVER =\n// = AUDIO =\n// = DEXSCREENER + GROWTH SYSTEM =\n// = GAME LOOP =\n// = START / RESTART =\n// = INIT =\n</script>\n</html>",
          reference := "newref",
          archive := [("v0.00.html", "<html>\n<script>\n// = CONFIG =\n// = SKETCH HELPERS =\n// = CANVAS =\n// = STATE =\n// = INPUT =\n// = UPGRADES =\n// = PLAYER UPDATE =\n// = ENEMIES =\n// = PROJECTILES =\n// = KILL / XP =\n// = PARTICLES =\n// = DRAW =\n// = HUD =\n// = GAME OVER =\n// = AUDIO =\n// = DEXSCREENER + GROWTH SYSTEM =\n// = GAME LOOP =\n// = START / RESTART =\n// = INIT =\n</script>\n</html>")] },
        .persisted) :=
  claim_C6_archive_gating
    { index := "<html>\n<script>\n// = CONFIG =\n// = SKETCH HELPERS =\n// = CANVAS =\n// = STATE =\n// = INPUT =\n// = UPGRADES =\n// = PLAYER UPDATE =\n// = ENEMIES =\n// = PROJECTILES =\n// = KILL / XP =\n// = PARTICLES =\n// = DRAW =\n// = HUD =\n// = GAME OVER =\n// = AUDIO =\n// = DEXSCREENER + GROWTH SYSTEM =\n// = GAME LOOP =\n// = START / RESTART =\n// = INIT =\n</script>\n</html>",
      reference := "ref", archive := [] }
    { versionNumber := "0.02", versionType := "MAJOR", summary := "s",
      changelog := "c", sectionChanges := [], referenceDoc := "newref" }
    "<html>\n<script>\n// = CONFIG =\n// = SKETCH HELPERS =\n// = CANVAS =\n// = STATE =\n// = INPUT =\n// = UPGRADES =\n// = PLAYER UPDATE =\n// = ENEMIES =\n// = PROJECTILES =\n// = KILL / XP =\n// = PARTICLES =\n// = DRAW =\n// = HUD =\n// = GAME OVER =\n// = AUDIO =\n// = DEXSCREENER + GROWTH SYSTEM =\n// = GAME LOOP =\n// = START / RESTART =\n// = INIT =\n</script>\n</html>"
    (by rfl) (by decide)

/-- Splitting a run of `n` newlines yields `n + 1` (empty) lines. -/
theorem splitNl_replicate_newline (n : Nat) :
    (splitNl (List.replicate n '\n')).length = n + 1 := by
  induction n with
  | zero => rfl
  | succ n ih =>
    rw [List.replicate_succ]
    unfold splitNl
    rw [if_pos rfl]
    simp [ih]

/-- `CONFIG` does not occur in a run of newlines. -/
theorem occursIn_config_replicate_newline (n : Nat) :
    occursIn ("CONFIG").data (List.replicate n '\n') = false := by
  induction n with
  | zero => rfl
  | succ n ih =>
    rw [List.replicate_succ]
    unfold occursIn
    rw [ih]
    simp only [Bool.or_false]
    rw [decide_eq_false_iff_not]
    intro h
    have : '\n' = 'C' := by
      have h6 : (6 : Nat) = 5 + 1 := rfl
      rw [show ("CONFIG").data.length = 6 from rfl, h6, List.take_succ_cons] at h
      exact (List.cons.injEq _ _ _ _).mp h |>.1
    exact absurd this (by decide)

/-- Witness for C7 on a 4001-newline (hence 4002-line) document that also
lacks the `CONFIG` banner: both violations appear in the one returned
error list. -/
theorem claim_C7_witness :
    ("Missing section banner: \"" ++ "CONFIG" ++ "\"") ∈
      validate (String.mk (List.replicate 4001 '\n')) ∧
    ("File too large: " ++
        toString (splitLines (String.mk (List.replicate 4001 '\n'))).length ++
        " lines (max 4000)") ∈
      validate (String.mk (List.replicate 4001 '\n')) :=
  claim_C7_validator_non_short_circuit (String.mk (List.replicate 4001 '\n'))
    "CONFIG" (by decide)
    (occursIn_config_replicate_newline 4001)
    (by
      show 4000 < (splitLines (String.mk (List.replicate 4001 '\n'))).length
      unfold splitLines
      rw [List.length_map]
      show 4000 < (splitNl (List.replicate 4001 '\n')).length
      rw [splitNl_replicate_newline]
      omega)

/-! ## C5: the global version rewrite leaves no stale occurrence -/

theorem isVerChar_A : isVerChar 'A' = false := rfl

theorem litChars_eq : litChars = 'A' :: ("rena Survivor v").data := rfl

theorem litTail_no_A : ∀ c ∈ ("rena Survivor v").data, c ≠ 'A' := by decide

theorem take16_cons (c : Char) (cs : List Char)
    (h : (c :: cs).take 16 = litChars) :
    c = 'A' ∧ cs.take 15 = ("rena Survivor v").data := by
  rw [show (16 : Nat) = 15 + 1 from rfl, List.take_succ_cons, litChars_eq] at h
  injection h with h1 h2
  exact ⟨h1, h2⟩

/-- The first sixteen characters of the output agree with the input (a
match emits the same literal the input starts with; a non-match copies). -/
theorem upd_take_eq (ver : List Char) (l : List Char) :
    ∀ k, k ≤ 16 → (updateVersionChars ver l).take k = l.take k := by
  induction l with
  | nil => intro k _; rw [updateVersionChars_nil]
  | cons c cs ih =>
    intro k hk
    rw [updateVersionChars_cons]
    by_cases hm : (c :: cs).take 16 = litChars ∧ verRun (c :: cs) ≠ []
    · rw [if_pos hm, List.append_assoc,
        List.take_append_of_le_length (by rw [show litChars.length = 16 from rfl]; exact hk)]
      have h2 : ((c :: cs).take 16).take k = (c :: cs).take k := by
        rw [List.take_take, Nat.min_eq_left hk]
      rw [← h2, hm.1]
    · rw [if_neg hm]
      cases k with
      | zero => simp
      | succ k => rw [List.take_succ_cons, List.take_succ_cons, ih k (by omega)]

/-- The output starts with a non-version character whenever the input
does (a match emits `A`, a non-match copies the head). -/
theorem upd_takeWhile_nil (ver : List Char) (l : List Char)
    (h : l.takeWhile isVerChar = []) :
    (updateVersionChars ver l).takeWhile isVerChar = [] := by
  cases l with
  | nil => rw [updateVersionChars_nil]; exact h
  | cons c cs =>
    have hc : isVerChar c = false := by
      by_cases hvc : isVerChar c = true
      · rw [List.takeWhile_cons, if_pos hvc] at h
        exact absurd h (by simp)
      · exact Bool.not_eq_true _ |>.mp hvc
    rw [updateVersionChars_cons]
    by_cases hm : (c :: cs).take 16 = litChars ∧ verRun (c :: cs) ≠ []
    · rw [if_pos hm, litChars_eq]
      simp only [List.cons_append]
      rw [List.takeWhile_cons]
      simp [isVerChar_A]
    · rw [if_neg hm, List.takeWhile_cons]
      simp [hc]

theorem takeWhile_dropWhile_nil (l : List Char) :
    (l.dropWhile isVerChar).takeWhile isVerChar = [] := by
  induction l with
  | nil => rfl
  | cons c cs ih =>
    rw [List.dropWhile_cons]
    by_cases hc : isVerChar c = true
    · rw [if_pos hc]; exact ih
    · rw [if_neg hc, List.takeWhile_cons, if_neg hc]

theorem takeWhile_append_all (v t : List Char)
    (hv : ∀ c ∈ v, isVerChar c = true) :
    (v ++ t).takeWhile isVerChar = v ++ t.takeWhile isVerChar := by
  induction v with
  | nil => rfl
  | cons c v2 ih =>
    rw [List.cons_append, List.takeWhile_cons, if_pos (hv c (List.mem_cons_self c v2)),
      ih (fun x hx => hv x (List.mem_cons_of_mem c hx)), List.cons_append]

theorem staleAt_false_of_head_ne (ver : List Char) (c : Char) (t : List Char)
    (hc : c ≠ 'A') : staleAt ver (c :: t) = false := by
  unfold staleAt
  rw [decide_eq_false_iff_not]
  intro hh
  exact hc (take16_cons c t hh.1).1

theorem hasStale_append_no_A (ver : List Char) (a t : List Char)
    (ha : ∀ c ∈ a, c ≠ 'A') :
    hasStale ver (a ++ t) = hasStale ver t := by
  induction a with
  | nil => rfl
  | cons c a2 ih =>
    rw [List.cons_append,
      show hasStale ver (c :: (a2 ++ t)) =
        (staleAt ver (c :: (a2 ++ t)) || hasStale ver (a2 ++ t)) from rfl,
      staleAt_false_of_head_ne ver c _ (ha c (List.mem_cons_self c a2)), Bool.false_or,
      ih (fun x hx => ha x (List.mem_cons_of_mem c hx))]

theorem hasStale_append_ver (ver : List Char) (v t : List Char)
    (hv : ∀ c ∈ v, isVerChar c = true) :
    hasStale ver (v ++ t) = hasStale ver t :=
  hasStale_append_no_A ver v t (fun c hc hEq => by
    rw [hEq] at hc
    have := hv 'A' hc
    rw [isVerChar_A] at this
    exact absurd this (by decide))

/-- At the start of an emitted replacement the numeric run is exactly the
new version, so the token there is not stale. -/
theorem staleAt_replacement (ver t : List Char)
    (hv : ∀ c ∈ ver, isVerChar c = true) (ht : t.takeWhile isVerChar = []) :
    staleAt ver (litChars ++ ver ++ t) = false := by
  unfold staleAt
  rw [decide_eq_false_iff_not]
  intro hh
  apply hh.2.2
  unfold verRun
  rw [List.append_assoc, show (16 : Nat) = litChars.length from rfl, List.drop_left,
    takeWhile_append_all ver t hv, ht, List.append_nil]

/-- Scanning an emitted replacement block contributes no stale token. -/
theorem hasStale_replacement (ver t : List Char)
    (hv : ∀ c ∈ ver, isVerChar c = true) (ht : t.takeWhile isVerChar = []) :
    hasStale ver (litChars ++ ver ++ t) = hasStale ver t := by
  rw [show (litChars ++ ver ++ t) = 'A' :: (("rena Survivor v").data ++ ver ++ t) from rfl,
    show hasStale ver ('A' :: (("rena Survivor v").data ++ ver ++ t)) =
      (staleAt ver ('A' :: (("rena Survivor v").data ++ ver ++ t)) ||
        hasStale ver (("rena Survivor v").data ++ ver ++ t)) from rfl,
    show ('A' :: (("rena Survivor v").data ++ ver ++ t)) = litChars ++ ver ++ t from rfl,
    staleAt_replacement ver t hv ht, Bool.false_or, List.append_assoc,
    hasStale_append_no_A ver _ _ litTail_no_A, hasStale_append_ver ver _ _ hv]

/-- A prefix containing no `A` is copied through the scan unchanged. -/
theorem upd_append_no_A (ver : List Char) (a b : List Char)
    (ha : ∀ c ∈ a, c ≠ 'A') :
    updateVersionChars ver (a ++ b) = a ++ updateVersionChars ver b := by
  induction a with
  | nil => rfl
  | cons c a2 ih =>
    rw [List.cons_append, updateVersionChars_cons, if_neg ?hneg]
    · rw [ih (fun x hx => ha x (List.mem_cons_of_mem c hx)), List.cons_append]
    case hneg =>
      intro hh
      exact ha c (List.mem_cons_self c a2) (take16_cons c _ hh.1).1

/-- Core induction: the rewritten text contains no stale version token. -/
theorem hasStale_upd_false (ver : List Char)
    (hv : ∀ c ∈ ver, isVerChar c = true) :
    ∀ (n : Nat) (l : List Char), l.length ≤ n →
      hasStale ver (updateVersionChars ver l) = false := by
  intro n
  induction n with
  | zero =>
    intro l hl
    have h0 : l = [] := List.eq_nil_of_length_eq_zero (Nat.le_zero.mp hl)
    subst h0
    rfl
  | succ n ih =>
    intro l hl
    cases l with
    | nil => rfl
    | cons c cs =>
      rw [updateVersionChars_cons]
      by_cases hm : (c :: cs).take 16 = litChars ∧ verRun (c :: cs) ≠ []
      · rw [if_pos hm]
        have ht : (updateVersionChars ver
            (((c :: cs).drop 16).dropWhile isVerChar)).takeWhile isVerChar = [] :=
          upd_takeWhile_nil ver _ (takeWhile_dropWhile_nil _)
        rw [hasStale_replacement ver _ hv ht]
        apply ih
        have hlt := dropVerRunShorter c cs
        simp only [List.length_cons] at hl hlt
        omega
      · rw [if_neg hm,
          show hasStale ver (c :: updateVersionChars ver cs) =
            (staleAt ver (c :: updateVersionChars ver cs) ||
              hasStale ver (updateVersionChars ver cs)) from rfl,
          ih cs (by simp only [List.length_cons] at hl; omega), Bool.or_false]
        by_cases hA : (c :: updateVersionChars ver cs).take 16 = litChars
        · have h16 : (c :: cs).take 16 = litChars := by
            have h := upd_take_eq ver (c :: cs) 16 (Nat.le_refl 16)
            rw [updateVersionChars_cons, if_neg hm] at h
            rw [← h]
            exact hA
          have hrun : verRun (c :: cs) = [] := by
            by_contra hr
            exact hm ⟨h16, hr⟩
          obtain ⟨hcA, hcs15⟩ := take16_cons c cs h16
          have hsplit : cs = ("rena Survivor v").data ++ cs.drop 15 := by
            conv_lhs => rw [← List.take_append_drop 15 cs]
            rw [hcs15]
          have hupd : updateVersionChars ver cs =
              ("rena Survivor v").data ++ updateVersionChars ver (cs.drop 15) := by
            conv_lhs => rw [hsplit]
            exact upd_append_no_A ver _ _ litTail_no_A
          have hrun2 : verRun (c :: updateVersionChars ver cs) = [] := by
            unfold verRun
            rw [show (16 : Nat) = 15 + 1 from rfl, List.drop_succ_cons, hupd,
              show (15 : Nat) = ("rena Survivor v").data.length from rfl, List.drop_left]
            apply upd_takeWhile_nil
            unfold verRun at hrun
            rw [show (16 : Nat) = 15 + 1 from rfl, List.drop_succ_cons] at hrun
            exact hrun
          unfold staleAt
          rw [decide_eq_false_iff_not]
          intro hh
          exact hh.2.1 hrun2
        · unfold staleAt
          rw [decide_eq_false_iff_not]
          intro hh
          exact hA hh.1

/-- C5: `updateVersionString` replaces every occurrence of the version
token pattern with the new version.  First part: for every document and
every (non-empty, numeric) new version string, the rewritten document
contains no stale occurrence — every place where
`Arena Survivor v[\d.]+` matches carries exactly the new version.
Second part: the claim's concrete scenario — a document holding the token
in two distinct places, rewritten from `0.00` to `0.02`, updates both
occurrences and leaves none stale. -/
theorem claim_C5_rewrite_updates_every_occurrence :
    (∀ (html newVersion : String), newVersion.data ≠ [] →
      (∀ c ∈ newVersion.data, isVerChar c = true) →
      hasStale newVersion.data (updateVersionString html newVersion).data = false) ∧
    updateVersionString
        "<h1>Arena Survivor v0.00</h1>\nlabel Arena Survivor v0.00 end" "0.02" =
      "<h1>Arena Survivor v0.02</h1>\nlabel Arena Survivor v0.02 end" := by
  constructor
  · intro html newVersion _hne hv
    exact hasStale_upd_false newVersion.data hv html.data.length html.data
      (Nat.le_refl _)
  · rfl

/-- Witness for C5's universally quantified part at a concrete
two-occurrence document and version `0.02`. -/
theorem claim_C5_witness :
    ("0.02").data ≠ [] ∧
    hasStale ("0.02").data
      (updateVersionString "x Arena Survivor v0.00 y Arena Survivor v0.00 z"
        "0.02").data = false :=
  ⟨by decide,
   claim_C5_rewrite_updates_every_occurrence.1
     "x Arena Survivor v0.00 y Arena Survivor v0.00 z" "0.02" (by decide) (by decide)⟩

end TheGame
